import Mathlib

/-!
Verification of the Kubrick live-streaming ingest and transcode pipeline.

The definitions below are a shallow embedding of the JavaScript source:

* `handleStreamStart`   — TranscodeWorker.handleStreamStart (kubrick-transcoder)
* `writeChunk`          — StreamCoordinator.writeChunk (kubrick-web-service)
* `onBinaryFrame`       — the binary-frame path of the WebSocket message handler
* `processChunk`        — TranscodeWorker.processChunk
* `consumeEntries`      — the net effect of TranscodeWorker.consumeChunks
* `pollFile`/`pollCycle`— one cycle of TranscodeWorker.startSegmentPoller
* `finalSweep`/`finalizeStream` — TranscodeWorker.finalizeStream
* `onMuxerClose`        — the FFmpeg close handler installed in startTranscoder

State is passed explicitly; fallible storage operations take a Bool oracle
telling whether the operation succeeds, and an exception is modelled as a
Bool component of the result.
-/

namespace Kubrick

/-- Opaque stream identifier (externally assigned). -/
abbrev StreamId := String

/-- Worker process identifier. -/
abbrev WorkerId := String

/-! ## Worker ownership (TranscodeWorker.handleStreamStart)

The Redis key `stream:{recordingId}:owner` is modelled as an association
list from stream id to worker id; `setnx` succeeds only when no binding
for the stream is present. -/

/-- Lookup in an association list, mirroring a Redis GET of the owner key. -/
def ownerOf : List (StreamId × WorkerId) → StreamId → Option WorkerId
  | [], _ => none
  | (s', w) :: rest, s => if s' = s then some w else ownerOf rest s

/-- The ownership-relevant state shared by all workers: the broker's owner
keys, the set of spawned per-stream transcoding tasks (stream id paired with
the worker that spawned it), and the published statusChange events (stream id
paired with the publishing worker). -/
structure WorkerPool where
  owner : List (StreamId × WorkerId)
  spawned : List (StreamId × WorkerId)
  published : List (StreamId × WorkerId)

/-- Embeds TranscodeWorker.handleStreamStart: attempt
`setnx stream:{recordingId}:owner workerId`; on failure log and return
without publishing or spawning; on success publish statusChange(transcoding)
and start the transcoder task. -/
def handleStreamStart (w : WorkerId) (s : StreamId) (st : WorkerPool) : WorkerPool :=
  match ownerOf st.owner s with
  | some _ => st
  | none =>
      { owner := (s, w) :: st.owner
        spawned := (s, w) :: st.spawned
        published := (s, w) :: st.published }

/-- Deliver a sequence of StreamStart control events, each handled by the
worker named in the pair (the control log is totally ordered, and each
setnx is atomic). -/
def runStarts (evs : List (WorkerId × StreamId)) (st : WorkerPool) : WorkerPool :=
  evs.foldl (fun st e => handleStreamStart e.1 e.2 st) st

/-- The system state before any control event. -/
def initPool : WorkerPool := { owner := [], spawned := [], published := [] }

/-- Every spawned task is backed by the owner key of the spawning worker. -/
def PoolInv (st : WorkerPool) : Prop :=
  ∀ s w, (s, w) ∈ st.spawned → ownerOf st.owner s = some w

/-! ## Gateway chunk path (StreamCoordinator.writeChunk)

The coordinator keeps an in-memory map `streams` of per-recording records;
`broker` models the `stream:{recordingId}:state` chunkCount field, `storage`
the set of object keys whose PUT has succeeded, and `chunkLog` the entries
xadd-ed to `stream:chunks:{recordingId}`. -/

/-- In-memory stream record created by StreamCoordinator.startStream. -/
structure MemStream where
  status : String
  bucket : String
  pfx : String
  chunkCount : Nat
deriving Repr, DecidableEq

/-- One entry of the per-stream chunk log (`seq`, `key`, `size`). -/
structure ChunkEntry where
  seq : Nat
  key : String
  size : Nat
deriving Repr, DecidableEq

/-- Gateway-visible state: coordinator map, object storage, broker counter
fields, and the per-stream chunk logs (entries tagged with the recording). -/
structure GwState where
  streams : List (String × MemStream)
  storage : List String
  broker : List (String × Nat)
  chunkLog : List (String × ChunkEntry)
deriving Repr, DecidableEq

/-- Association-list lookup (Map.get / Redis HGET). -/
def lookupA {α : Type} : List (String × α) → String → Option α
  | [], _ => none
  | (k, v) :: rest, s => if k = s then some v else lookupA rest s

/-- Association-list update of an existing key (Map.set on a present key). -/
def updateA {α : Type} : List (String × α) → String → α → List (String × α)
  | [], _, _ => []
  | (k, v) :: rest, s, v' => if k = s then (k, v') :: rest else (k, v) :: updateA rest s v'

/-- Redis HINCRBY on the chunkCount field: increment, creating at 1 if absent. -/
def brokerIncr (l : List (String × Nat)) (k : String) : List (String × Nat) :=
  match lookupA l k with
  | some n => updateA l k (n + 1)
  | none => (k, 1) :: l

/-- Left-pad a number with zeros, as String(seq).padStart(8, '0'). -/
def padZeros (w : Nat) (n : Nat) : String :=
  let s := toString n
  String.mk (List.replicate (w - s.length) '0') ++ s

/-- Object key of chunk `seq`: prefix/recordingId/chunks/chunk_{seq:08d}.webm. -/
def chunkKey (pfx recId : String) (seq : Nat) : String :=
  pfx ++ "/" ++ recId ++ "/chunks/chunk_" ++ padZeros 8 seq ++ ".webm"

/-- Embeds StreamCoordinator.startStream: create the in-memory record with
status live and chunkCount 0, and initialize the broker state record. -/
def startStream (recId bucket pfx : String) (st : GwState) : GwState :=
  { st with
      streams := (recId, { status := "live", bucket := bucket, pfx := pfx, chunkCount := 0 })
        :: st.streams
      broker := (recId, 0) :: st.broker }

/-- Embeds StreamCoordinator.writeChunk. The record is looked up; absent or
non-live records drop the chunk silently. Otherwise `seq` is taken from the
in-memory counter, which is post-incremented before the upload (the source
has `const seq = streamState.chunkCount++`). `uploadOk` tells whether the
object PUT succeeds; on failure the raised error is the Bool component and
none of the broker effects happen. On success the broker counter is
incremented and the entry is appended to the chunk log. -/
def writeChunk (recId : String) (chunkLen : Nat) (uploadOk : Bool) (st : GwState) :
    GwState × Bool :=
  match lookupA st.streams recId with
  | none => (st, false)
  | some ms =>
      if ms.status = "live" then
        let seq := ms.chunkCount
        let st1 := { st with
          streams := updateA st.streams recId { ms with chunkCount := seq + 1 } }
        let key := chunkKey ms.pfx recId seq
        if uploadOk then
          ({ st1 with
              storage := key :: st1.storage
              broker := brokerIncr st1.broker recId
              chunkLog := st1.chunkLog ++ [(recId, { seq := seq, key := key, size := chunkLen })] },
            false)
        else (st1, true)
      else (st, false)

/-- Run a sequence of binary chunks through writeChunk; each request is a
chunk length paired with whether its object PUT succeeds. -/
def runWrites (recId : String) (reqs : List (Nat × Bool)) (st : GwState) : GwState :=
  reqs.foldl (fun s r => (writeChunk recId r.1 r.2 s).1) st

/-- Every committed chunk-log entry points at an object whose write succeeded. -/
def LogBacked (st : GwState) : Prop :=
  ∀ p ∈ st.chunkLog, p.2.key ∈ st.storage

/-- Gateway state before any stream exists. -/
def initGw : GwState := { streams := [], storage := [], broker := [], chunkLog := [] }

/-! ## WebSocket binary-frame handler (WebSocketServer ws.on('message')) -/

/-- Text frames the handler can send back on the connection. -/
inductive Reply where
  | errorMsg (detail : String)
  | started (recId : String)
  | stopped (recId : String)
  | pong
deriving Repr, DecidableEq

/-- Connection-local state of the message handler: `streamId` and
`isAuthenticated` are set only after a successful start control frame. -/
structure ConnState where
  streamId : Option String
  isAuthenticated : Bool
deriving Repr, DecidableEq

/-- Embeds the binary branch of ws.on('message'): without a prior successful
start, the handler sends an error frame and returns (the connection stays
open); otherwise the chunk goes to the coordinator, and a raised storage
error is caught and sent back as an error text frame. The final Bool says
whether the handler closed the connection (the source never does). -/
def onBinaryFrame (conn : ConnState) (gw : GwState) (chunkLen : Nat) (uploadOk : Bool) :
    GwState × List Reply × Bool :=
  match conn.streamId, conn.isAuthenticated with
  | some sid, true =>
      let r := writeChunk sid chunkLen uploadOk gw
      if r.2 then (r.1, [Reply.errorMsg "storage write failed"], false)
      else (r.1, [], false)
  | _, _ => (gw, [Reply.errorMsg "Not authenticated"], false)

/-! ## Worker chunk consumer (TranscodeWorker.processChunk / consumeChunks) -/

/-- One entry read from `stream:chunks:{recordingId}`, together with the
oracle telling whether the storage GET of its object succeeds. -/
structure LogEntry where
  seq : Int
  dlOk : Bool
deriving Repr, DecidableEq

/-- Consumer-task state: `lastChunkSeq` starts at -1; `applied` records the
sequence numbers written to the muxer stdin, in order; `published` records
the events published on the progress channel by this code path (the source
consumeChunks/processChunk never publishes, so no branch appends to it). -/
structure ConsState where
  lastChunkSeq : Int
  applied : List Int
  published : List String
deriving Repr, DecidableEq

/-- Embeds TranscodeWorker.processChunk: an entry with seq at most
lastChunkSeq is rejected (out-of-order warning, no download); otherwise the
object is downloaded (`dlOk` says whether the GET succeeds — on failure the
raised error is the Bool component and no state changes), the bytes go to
the muxer stdin, and lastChunkSeq is set to the entry's seq. -/
def processChunk (dlOk : Bool) (st : ConsState) (seqNum : Int) : ConsState × Bool :=
  if seqNum ≤ st.lastChunkSeq then (st, false)
  else if dlOk then
    ({ st with lastChunkSeq := seqNum, applied := st.applied ++ [seqNum] }, false)
  else (st, true)

/-- Net effect of one entry inside the consumeChunks read loop: a raised
download error is caught by the surrounding try (logged, 100ms sleep) and
the loop resumes after the failed entry — its id was already assigned to
lastId — so the entry is simply skipped. -/
def consumeStep (st : ConsState) (e : LogEntry) : ConsState :=
  (processChunk e.dlOk st e.seq).1

/-- Embeds the consumeChunks tail-read loop over the per-stream chunk log:
entries are handled in log order, each by consumeStep. -/
def consumeEntries : ConsState → List LogEntry → ConsState
  | st, [] => st
  | st, e :: rest => consumeEntries (consumeStep st e) rest

/-- Consume a log of always-downloadable chunks with the given seqs. -/
def consumeSeqs (st : ConsState) (seqs : List Int) : ConsState :=
  consumeEntries st (seqs.map fun q => { seq := q, dlOk := true })

/-- Consumer state at transcoder start (lastChunkSeq = -1). -/
def cInit : ConsState := { lastChunkSeq := -1, applied := [], published := [] }

/-- Applied seqs are strictly increasing and bounded by lastChunkSeq. -/
def ConsInv (st : ConsState) : Prop :=
  st.applied.Pairwise (· < ·) ∧ ∀ a ∈ st.applied, a ≤ st.lastChunkSeq

/-! ## Output uploader (TranscodeWorker.startSegmentPoller) -/

/-- JavaScript String.prototype.endsWith over the characters of the
strings (kernel-reducible). -/
def strEndsWith (s t : String) : Bool := t.data.isSuffixOf s.data

/-- A directory entry as the poller sees it: `ageMs` is Date.now() minus the
file's mtime at stat time; `mtime` is the raw mtimeMs used for the manifest
change check; `size` the byte size. -/
structure DirFile where
  name : String
  ageMs : Nat
  mtime : Nat
  size : Nat
deriving Repr, DecidableEq

/-- Poller-task state shared across cycles. -/
structure PollSt where
  uploadedSegments : List String
  lastManifestMtime : Nat
  totalBytes : Nat
deriving Repr, DecidableEq

/-- An upload performed during a poll cycle (segment upload includes the
segmentReady publish; manifest upload includes the manifestUpdated publish). -/
inductive UpAct where
  | segment (name : String) (size : Nat)
  | manifest
deriving Repr, DecidableEq

/-- Embeds the body of the poller loop for one directory entry: a .ts file
not yet uploaded is uploaded if unmodified for more than 500ms; else if the
entry is stream.m3u8 and its mtime moved past the last uploaded mtime, the
manifest is uploaded. -/
def pollFile (st : PollSt) (f : DirFile) : PollSt × List UpAct :=
  if strEndsWith f.name ".ts" = true ∧ f.name ∉ st.uploadedSegments then
    if f.ageMs > 500 then
      ({ st with uploadedSegments := f.name :: st.uploadedSegments,
                 totalBytes := st.totalBytes + f.size }, [UpAct.segment f.name f.size])
    else (st, [])
  else if f.name = "stream.m3u8" then
    if f.mtime > st.lastManifestMtime then
      ({ st with lastManifestMtime := f.mtime }, [UpAct.manifest])
    else (st, [])
  else (st, [])

/-- Embeds one poll cycle: the readdir listing is processed in order, each
entry by pollFile, accumulating the uploads performed. -/
def pollCycle : PollSt → List DirFile → PollSt × List UpAct
  | st, [] => (st, [])
  | st, f :: rest =>
      ((pollCycle (pollFile st f).1 rest).1,
       (pollFile st f).2 ++ (pollCycle (pollFile st f).1 rest).2)

/-- Poller state at stream start. -/
def pInit : PollSt := { uploadedSegments := [], lastManifestMtime := 0, totalBytes := 0 }

/-! ## Finalizer (TranscodeWorker.finalizeStream and the FFmpeg close handler) -/

/-- A file found in the output directory during the final sweep. -/
structure FinFile where
  name : String
  size : Nat
deriving Repr, DecidableEq

/-- Effects performed by the finalizer, in order. -/
inductive FinAct where
  | stopPoller
  | uploadSegment (name : String) (size : Nat)
  | uploadManifest
  | publishStatus (status : String)
  | publishStreamError (reason : String)
  | publishComplete (segmentCount : Nat) (totalBytes : Nat)
  | setBrokerStatus (status : String)
  | delOwner
  | removeDir
deriving Repr, DecidableEq

/-- Whether an action is an error-mode publication (StatusChange(Error) or
StreamError). -/
def isErrorFin : FinAct → Bool
  | FinAct.publishStatus s => s == "error"
  | FinAct.publishStreamError _ => true
  | FinAct.stopPoller => false
  | FinAct.uploadSegment _ _ => false
  | FinAct.uploadManifest => false
  | FinAct.publishComplete _ _ => false
  | FinAct.setBrokerStatus _ => false
  | FinAct.delOwner => false
  | FinAct.removeDir => false

/-- Embeds the final sweep loop of finalizeStream: every .ts file not in
uploadedSegments is uploaded (in listing order) and its size added to
totalBytes. Returns the upload actions and the added bytes. -/
def finalSweep (uploaded : List String) : List FinFile → List FinAct × Nat
  | [] => ([], 0)
  | f :: rest =>
      if strEndsWith f.name ".ts" = true ∧ f.name ∉ uploaded then
        (FinAct.uploadSegment f.name f.size :: (finalSweep uploaded rest).1,
         f.size + (finalSweep uploaded rest).2)
      else finalSweep uploaded rest

/-- Embeds TranscodeWorker.finalizeStream: stop the poller, sweep remaining
segments, upload the final manifest if the file exists, publish
statusChange(ready) then streamComplete with the stderr-derived segment
count and the accumulated bytes, set the broker status to complete, delete
the owner key, and remove the temporary output directory. -/
def finalizeStream (uploaded : List String) (segCount totalBytes : Nat)
    (files : List FinFile) (manifestExists : Bool) : List FinAct :=
  FinAct.stopPoller ::
    ((finalSweep uploaded files).1
      ++ ((if manifestExists then [FinAct.uploadManifest] else [])
        ++ [FinAct.publishStatus "ready",
            FinAct.publishComplete segCount (totalBytes + (finalSweep uploaded files).2),
            FinAct.setBrokerStatus "complete",
            FinAct.delOwner,
            FinAct.removeDir]))

/-- Embeds the handler installed by startTranscoder on the FFmpeg child's
close event: the exit code and the stream status are not consulted — the
handler logs and runs finalizeStream unconditionally. -/
def onMuxerClose (_code : Int) (_status : String) (uploaded : List String)
    (segCount totalBytes : Nat) (files : List FinFile) (manifestExists : Bool) :
    List FinAct :=
  finalizeStream uploaded segCount totalBytes files manifestExists

end Kubrick

namespace Kubrick

theorem ownerOf_cons_self (w : WorkerId) (s : StreamId)
    (l : List (StreamId × WorkerId)) : ownerOf ((s, w) :: l) s = some w := by
  simp [ownerOf]

theorem ownerOf_cons_ne (w : WorkerId) (s s0 : StreamId)
    (l : List (StreamId × WorkerId)) (h : s ≠ s0) :
    ownerOf ((s, w) :: l) s0 = ownerOf l s0 := by
  simp [ownerOf, h]

theorem handleStreamStart_preserves_inv (w : WorkerId) (s : StreamId)
    (st : WorkerPool) (h : PoolInv st) : PoolInv (handleStreamStart w s st) := by
  unfold handleStreamStart
  cases hown : ownerOf st.owner s with
  | some w0 => exact h
  | none =>
      intro s0 w0 hmem
      simp only [List.mem_cons] at hmem
      rcases hmem with heq | hmem
      · injection heq with hs hw
        subst hs; subst hw
        simp [ownerOf]
      · have hold := h s0 w0 hmem
        by_cases hss : s = s0
        · subst hss
          rw [hown] at hold
          exact absurd hold (by simp)
        · rw [ownerOf_cons_ne w s s0 st.owner hss]
          exact hold

theorem runStarts_preserves_inv (evs : List (WorkerId × StreamId))
    (st : WorkerPool) (h : PoolInv st) : PoolInv (runStarts evs st) := by
  induction evs generalizing st with
  | nil => exact h
  | cons e rest ih =>
      simp only [runStarts, List.foldl_cons]
      exact ih _ (handleStreamStart_preserves_inv e.1 e.2 st h)

theorem initPool_inv : PoolInv initPool := by
  intro s w hmem
  simp [initPool] at hmem

/-- C1. For every StreamId, at most one worker holds the owner key (so at
most one worker ever spawns a transcoding task for it): starting from the
initial state, any sequence of StreamStart deliveries leaves every spawned
task backed by the unique owner key, two spawns for the same stream come
from the same worker, and a worker observing a StreamStart for a stream
already owned leaves the whole state unchanged — it spawns no task and
publishes no event. -/
theorem streamStart_single_owner :
    (∀ (evs : List (WorkerId × StreamId)) (s : StreamId) (w1 w2 : WorkerId),
      (s, w1) ∈ (runStarts evs initPool).spawned →
      (s, w2) ∈ (runStarts evs initPool).spawned → w1 = w2)
    ∧ (∀ (evs : List (WorkerId × StreamId)) (s : StreamId) (w : WorkerId),
        (s, w) ∈ (runStarts evs initPool).spawned →
        ownerOf (runStarts evs initPool).owner s = some w)
    ∧ (∀ (w w0 : WorkerId) (s : StreamId) (st : WorkerPool),
        ownerOf st.owner s = some w0 → handleStreamStart w s st = st) := by
  refine ⟨?_, ?_, ?_⟩
  · intro evs s w1 w2 h1 h2
    have hinv := runStarts_preserves_inv evs initPool initPool_inv
    have e1 := hinv s w1 h1
    have e2 := hinv s w2 h2
    rw [e1] at e2
    exact Option.some.inj e2
  · intro evs s w hmem
    exact runStarts_preserves_inv evs initPool initPool_inv s w hmem
  · intro w w0 s st hown
    unfold handleStreamStart
    rw [hown]

/-- Concrete instance of C1: two workers race for stream s1; the first
claims it, the second's StreamStart is a no-op. -/
theorem streamStart_single_owner_witness :
    ("wA" : WorkerId) = "wA"
    ∧ ownerOf (runStarts [("wA", "s1"), ("wB", "s1")] initPool).owner "s1" = some "wA"
    ∧ handleStreamStart "wB" "s1" (runStarts [("wA", "s1")] initPool)
        = runStarts [("wA", "s1")] initPool := by
  refine ⟨?_, ?_, ?_⟩
  · exact streamStart_single_owner.1 [("wA", "s1"), ("wB", "s1")] "s1" "wA" "wA"
      (by decide) (by decide)
  · exact streamStart_single_owner.2.1 [("wA", "s1"), ("wB", "s1")] "s1" "wA" (by decide)
  · exact streamStart_single_owner.2.2 "wB" "wA" "s1" (runStarts [("wA", "s1")] initPool)
      (by decide)

theorem lookupA_updateA_self {α : Type} (l : List (String × α)) (k : String)
    (a v : α) (h : lookupA l k = some a) : lookupA (updateA l k v) k = some v := by
  induction l with
  | nil => simp [lookupA] at h
  | cons p rest ih =>
      obtain ⟨k0, v0⟩ := p
      by_cases hk : k0 = k
      · subst hk
        simp [lookupA, updateA]
      · simp only [lookupA, updateA, if_neg hk] at h ⊢
        exact ih h

theorem writeChunk_preserves_logBacked (recId : String) (len : Nat) (ok : Bool)
    (st : GwState) (h : LogBacked st) : LogBacked (writeChunk recId len ok st).1 := by
  unfold writeChunk
  cases hml : lookupA st.streams recId with
  | none => exact h
  | some ms =>
      by_cases hlive : ms.status = "live"
      · cases ok with
        | true =>
            simp only [hlive, if_pos, if_true]
            intro p hp
            simp only [List.mem_append, List.mem_singleton] at hp
            rcases hp with hp | hp
            · exact List.mem_cons_of_mem _ (h p hp)
            · subst hp
              exact List.mem_cons_self _ _
        | false =>
            simp only [hlive, if_pos, if_false]
            exact h
      · simp only [if_neg hlive]
        exact h

theorem runWrites_preserves_logBacked (recId : String) (reqs : List (Nat × Bool))
    (st : GwState) (h : LogBacked st) : LogBacked (runWrites recId reqs st) := by
  induction reqs generalizing st with
  | nil => exact h
  | cons r rest ih =>
      simp only [runWrites, List.foldl_cons]
      exact ih _ (writeChunk_preserves_logBacked recId r.1 r.2 st h)

theorem writeChunk_fail_log_unchanged (recId : String) (len : Nat) (st : GwState) :
    ((writeChunk recId len false st).1).chunkLog = st.chunkLog := by
  unfold writeChunk
  cases hml : lookupA st.streams recId with
  | none => rfl
  | some ms =>
      by_cases hlive : ms.status = "live"
      · simp [hlive]
      · simp [hlive]

/-- C2. Starting a stream and running any sequence of chunk writes keeps the
chunk log backed by storage: every committed entry's key names an object
whose write succeeded (so a reader observing sequence n can fetch it), and a
failed object write appends nothing to the chunk log. -/
theorem chunkLog_backed (recId bucket pfx : String) (reqs : List (Nat × Bool)) :
    (∀ p ∈ (runWrites recId reqs (startStream recId bucket pfx initGw)).chunkLog,
        p.2.key ∈ (runWrites recId reqs (startStream recId bucket pfx initGw)).storage)
    ∧ (∀ (len : Nat) (st : GwState),
        ((writeChunk recId len false st).1).chunkLog = st.chunkLog) := by
  constructor
  · exact runWrites_preserves_logBacked recId reqs _ (by intro p hp; simp [startStream, initGw] at hp)
  · exact fun len st => writeChunk_fail_log_unchanged recId len st

/-- Concrete instance of C2: after one successful and one failed write, the
single committed entry's object is present in storage. -/
theorem chunkLog_backed_witness :
    ("p/r/chunks/chunk_00000000.webm" : String) ∈
      (runWrites "r" [(5, true), (7, false)] (startStream "r" "b" "p" initGw)).storage := by
  exact (chunkLog_backed "r" "b" "p" [(5, true), (7, false)]).1
    ("r", { seq := 0, key := "p/r/chunks/chunk_00000000.webm", size := 5 }) (by decide)

/-- C3 fails on the code: the in-memory counter is post-incremented before
the object write, so after a failed write for seq 0 the next (successful)
chunk is logged with seq 1, not the sequence number the failed write used. -/
theorem writeChunk_seq_advance_cex :
    ((writeChunk "r" 7 true
        ((writeChunk "r" 5 false (startStream "r" "b" "p" initGw)).1)).1.chunkLog.map
      (fun p => p.2.seq)) = [1] ∧ (1 : Nat) ≠ 0 := by
  constructor
  · decide
  · decide

/-- C3 (amended). A failed object write raises an error that the message
handler turns into a text error frame, and leaves storage, broker counter
and chunk log untouched — but the in-memory sequence counter has already
advanced, so the next chunk receives the next sequence number rather than
re-using the failed one. -/
theorem writeChunk_failure_behavior (recId : String) (len : Nat) (st : GwState)
    (ms : MemStream) (hm : lookupA st.streams recId = some ms)
    (hl : ms.status = "live") :
    (writeChunk recId len false st).2 = true
    ∧ (writeChunk recId len false st).1.storage = st.storage
    ∧ (writeChunk recId len false st).1.chunkLog = st.chunkLog
    ∧ (writeChunk recId len false st).1.broker = st.broker
    ∧ lookupA ((writeChunk recId len false st).1).streams recId
        = some { ms with chunkCount := ms.chunkCount + 1 }
    ∧ (∀ conn : ConnState, conn.streamId = some recId → conn.isAuthenticated = true →
        (onBinaryFrame conn st len false).2.1 = [Reply.errorMsg "storage write failed"]) := by
  have hwc : writeChunk recId len false st = ({ st with streams := updateA st.streams recId { ms with chunkCount := ms.chunkCount + 1 } }, true) := by
    unfold writeChunk
    rw [hm]
    simp [hl]
  refine ⟨by rw [hwc], by rw [hwc], by rw [hwc], by rw [hwc], ?_, ?_⟩
  · rw [hwc]
    exact lookupA_updateA_self st.streams recId ms _ hm
  · intro conn hcs hca
    unfold onBinaryFrame
    rw [hcs, hca]
    simp [hwc]

/-- Concrete instance of C3 (amended) at a live single-stream state. -/
theorem writeChunk_failure_behavior_witness :
    (writeChunk "r" 5 false (startStream "r" "b" "p" initGw)).2 = true
    ∧ (writeChunk "r" 5 false (startStream "r" "b" "p" initGw)).1.chunkLog
        = (startStream "r" "b" "p" initGw).chunkLog := by
  have h := writeChunk_failure_behavior "r" 5 (startStream "r" "b" "p" initGw)
    { status := "live", bucket := "b", pfx := "p", chunkCount := 0 } (by decide) (by decide)
  exact ⟨h.1, h.2.2.1⟩

/-- C9 fails on the code: a binary frame on a fresh, unauthenticated
connection elicits an error text frame but the handler returns with the
connection still open (the closed flag is false). -/
theorem binary_before_start_cex :
    onBinaryFrame { streamId := none, isAuthenticated := false } initGw 100 true
        = (initGw, [Reply.errorMsg "Not authenticated"], false)
    ∧ (onBinaryFrame { streamId := none, isAuthenticated := false } initGw 100 true).2.2
        = false := by
  constructor
  · rfl
  · rfl

/-- C9 (amended). A binary frame received before a successful start control
frame is dropped: the Gateway replies with a "Not authenticated" error text
frame, leaves its state unchanged, and keeps the connection open. -/
theorem binary_before_start_error_frame (conn : ConnState) (gw : GwState)
    (len : Nat) (ok : Bool) (h : conn.isAuthenticated = false) :
    onBinaryFrame conn gw len ok = (gw, [Reply.errorMsg "Not authenticated"], false) := by
  obtain ⟨sid, auth⟩ := conn
  have h2 : auth = false := h
  subst h2
  cases sid <;> rfl

/-- Concrete instance of C9 (amended). -/
theorem binary_before_start_error_frame_witness :
    onBinaryFrame { streamId := some "r", isAuthenticated := false } initGw 3 true
        = (initGw, [Reply.errorMsg "Not authenticated"], false) :=
  binary_before_start_error_frame { streamId := some "r", isAuthenticated := false }
    initGw 3 true rfl

/-- C10. A writeChunk call for a recording whose in-memory record is absent
or not live returns with the entire state unchanged — no object written, no
counter change, no chunk-log append — and raises no error. -/
theorem writeChunk_non_live_noop (recId : String) (len : Nat) (ok : Bool)
    (st : GwState)
    (h : ∀ ms, lookupA st.streams recId = some ms → ¬ ms.status = "live") :
    writeChunk recId len ok st = (st, false) := by
  unfold writeChunk
  cases hml : lookupA st.streams recId with
  | none => rfl
  | some ms => simp [h ms hml]

theorem consumeStep_preserves_inv (st : ConsState) (e : LogEntry)
    (h : ConsInv st) : ConsInv (consumeStep st e) := by
  unfold consumeStep processChunk
  by_cases hle : e.seq ≤ st.lastChunkSeq
  · simpa [hle] using h
  · cases hdl : e.dlOk with
    | false => simpa [hle] using h
    | true =>
        simp only [hle, if_neg, if_false, if_pos, if_true]
        constructor
        · rw [List.pairwise_append]
          refine ⟨h.1, List.pairwise_singleton _ _, ?_⟩
          intro a ha b hb
          rw [List.mem_singleton] at hb
          subst hb
          exact lt_of_le_of_lt (h.2 a ha) (lt_of_not_le hle)
        · intro a ha
          rw [List.mem_append, List.mem_singleton] at ha
          rcases ha with ha | ha
          · exact le_of_lt (lt_of_le_of_lt (h.2 a ha) (lt_of_not_le hle))
          · exact le_of_eq ha

theorem consumeEntries_preserves_inv (es : List LogEntry) (st : ConsState)
    (h : ConsInv st) : ConsInv (consumeEntries st es) := by
  induction es generalizing st with
  | nil => exact h
  | cons e rest ih => exact ih _ (consumeStep_preserves_inv st e h)

/-- C4 fails on the code: with log entries seq = 0,1,3 the consumer applies
0, 1 and 3 immediately — it does not wait for the missing seq 2 — and when
seq 2 later appears it is rejected as out of order, so the applied sequence
is 0,1,3 and never becomes 0,1,2,3. -/
theorem processChunk_gap_applied_cex :
    (consumeSeqs cInit [0, 1, 3]).applied = [0, 1, 3]
    ∧ (consumeSeqs cInit [0, 1, 3, 2]).applied = [0, 1, 3]
    ∧ ([0, 1, 3] : List Int) ≠ [0, 1, 2, 3] := by
  refine ⟨by decide, by decide, by decide⟩

/-- C4 (amended). The consumer applies chunk-log entries in strictly
increasing but not necessarily gapless order: an entry with seq at most
lastAppliedSeq is rejected and leaves the state unchanged, while any entry
with a larger seq — even one beyond lastAppliedSeq + 1 — is applied
immediately rather than awaited; consequently the applied sequence is
strictly increasing. -/
theorem processChunk_monotone_no_gap_wait (seqs : List Int) :
    ((consumeSeqs cInit seqs).applied).Pairwise (· < ·)
    ∧ (∀ (st : ConsState) (q : Int), q ≤ st.lastChunkSeq →
        processChunk true st q = (st, false))
    ∧ (∀ (st : ConsState) (q : Int), st.lastChunkSeq < q →
        (processChunk true st q).1.applied = st.applied ++ [q]
        ∧ (processChunk true st q).1.lastChunkSeq = q) := by
  refine ⟨?_, ?_, ?_⟩
  · exact (consumeEntries_preserves_inv _ cInit (by simp [cInit, ConsInv])).1
  · intro st q hle
    simp [processChunk, hle]
  · intro st q hlt
    simp [processChunk, not_le.mpr hlt]

/-- Concrete instance of C4 (amended): a gapped entry is applied at once. -/
theorem processChunk_monotone_no_gap_wait_witness :
    (processChunk true { lastChunkSeq := 1, applied := [0, 1], published := [] } 3).1.applied
        = [0, 1] ++ [3]
    ∧ processChunk true { lastChunkSeq := 3, applied := [0, 1, 3], published := [] } 2
        = ({ lastChunkSeq := 3, applied := [0, 1, 3], published := [] }, false) := by
  constructor
  · exact ((processChunk_monotone_no_gap_wait []).2.2
      { lastChunkSeq := 1, applied := [0, 1], published := [] } 3 (by decide)).1
  · exact (processChunk_monotone_no_gap_wait []).2.1
      { lastChunkSeq := 3, applied := [0, 1, 3], published := [] } 2 (by decide)

theorem consumeStep_published (st : ConsState) (e : LogEntry) :
    (consumeStep st e).published = st.published := by
  unfold consumeStep processChunk
  by_cases hle : e.seq ≤ st.lastChunkSeq
  · simp [hle]
  · cases hdl : e.dlOk <;> simp [hle]

theorem consumeEntries_published (es : List LogEntry) (st : ConsState) :
    (consumeEntries st es).published = st.published := by
  induction es generalizing st with
  | nil => rfl
  | cons e rest ih => rw [consumeEntries, ih, consumeStep_published]

/-- C8 fails on the code: a storage GET failure for an entry is caught,
logged and slept over, but the entry is never retried (the read cursor has
already advanced past it), no StreamError is published, and the task keeps
consuming — the next entry is still applied. -/
theorem download_failure_skips_chunk_cex :
    (consumeEntries cInit
        [{ seq := 0, dlOk := false }, { seq := 1, dlOk := true }]).applied = [1]
    ∧ (consumeEntries cInit
        [{ seq := 0, dlOk := false }, { seq := 1, dlOk := true }]).published = []
    ∧ (consumeEntries cInit
        [{ seq := 0, dlOk := false }, { seq := 1, dlOk := true }]).lastChunkSeq = 1 := by
  refine ⟨by decide, by decide, by decide⟩

/-- C8 (amended). A storage GET failure while consuming a chunk is not
retried: the raised error is caught (logged, 100ms sleep) and consumption
resumes after the failed entry, which is permanently skipped without
advancing lastAppliedSeq; no StreamError is published on the progress
channel and the task continues with the remaining entries. -/
theorem download_failure_no_retry (es : List LogEntry) (st : ConsState)
    (e : LogEntry) (h : e.dlOk = false) :
    consumeStep st e = st
    ∧ consumeEntries st (e :: es) = consumeEntries st es
    ∧ (consumeEntries st es).published = st.published := by
  have hstep : consumeStep st e = st := by
    unfold consumeStep processChunk
    by_cases hle : e.seq ≤ st.lastChunkSeq
    · simp [hle]
    · simp [hle, h]
  refine ⟨hstep, ?_, consumeEntries_published es st⟩
  rw [consumeEntries, hstep]

/-- Concrete instance of C8 (amended). -/
theorem download_failure_no_retry_witness :
    consumeEntries cInit [{ seq := 0, dlOk := false }, { seq := 1, dlOk := true }]
      = consumeEntries cInit [{ seq := 1, dlOk := true }] := by
  exact (download_failure_no_retry [{ seq := 1, dlOk := true }] cInit
    { seq := 0, dlOk := false } rfl).2.1

/-- Concrete instance of C10: a chunk for an ended stream is silently dropped. -/
theorem writeChunk_non_live_noop_witness :
    writeChunk "r" 9 true
        { streams := [("r", { status := "ending", bucket := "b", pfx := "p", chunkCount := 4 })],
          storage := [], broker := [("r", 4)], chunkLog := [] }
      = ({ streams := [("r", { status := "ending", bucket := "b", pfx := "p", chunkCount := 4 })],
           storage := [], broker := [("r", 4)], chunkLog := [] }, false) := by
  exact writeChunk_non_live_noop "r" 9 true _ (by decide)

theorem pollCycle_append (fs1 fs2 : List DirFile) (st : PollSt) :
    pollCycle st (fs1 ++ fs2)
      = ((pollCycle (pollCycle st fs1).1 fs2).1,
         (pollCycle st fs1).2 ++ (pollCycle (pollCycle st fs1).1 fs2).2) := by
  induction fs1 generalizing st with
  | nil => simp [pollCycle]
  | cons f rest ih =>
      simp only [List.cons_append, pollCycle, List.append_eq, List.append_assoc,
        Prod.mk.injEq]
      constructor <;> rw [ih]

theorem pollFile_no_manifest (st : PollSt) (f : DirFile)
    (h : f.name ≠ "stream.m3u8") : UpAct.manifest ∉ (pollFile st f).2 := by
  unfold pollFile
  by_cases hts : strEndsWith f.name ".ts" = true ∧ f.name ∉ st.uploadedSegments
  · by_cases hage : f.ageMs > 500 <;> simp [hts, hage]
  · simp [hts, h]

theorem pollFile_no_segment (st : PollSt) (f : DirFile)
    (h : strEndsWith f.name ".ts" = false) (n : String) (sz : Nat) :
    UpAct.segment n sz ∉ (pollFile st f).2 := by
  unfold pollFile
  have hts : ¬(strEndsWith f.name ".ts" = true ∧ f.name ∉ st.uploadedSegments) := by
    rw [h]; simp
  rw [if_neg hts]
  by_cases hm : f.name = "stream.m3u8"
  · rw [if_pos hm]
    by_cases hmt : f.mtime > st.lastManifestMtime
    · rw [if_pos hmt]; simp
    · rw [if_neg hmt]; simp
  · rw [if_neg hm]; simp

theorem pollCycle_no_manifest (fs : List DirFile) (st : PollSt)
    (h : ∀ f ∈ fs, f.name ≠ "stream.m3u8") :
    UpAct.manifest ∉ (pollCycle st fs).2 := by
  induction fs generalizing st with
  | nil => simp [pollCycle]
  | cons f rest ih =>
      simp only [pollCycle, List.mem_append]
      intro hmem
      rcases hmem with hmem | hmem
      · exact pollFile_no_manifest st f (h f (List.mem_cons_self f rest)) hmem
      · exact ih (pollFile st f).1 (fun g hg => h g (List.mem_cons_of_mem f hg)) hmem

theorem pollCycle_no_segment (fs : List DirFile) (st : PollSt)
    (h : ∀ f ∈ fs, strEndsWith f.name ".ts" = false) (n : String) (sz : Nat) :
    UpAct.segment n sz ∉ (pollCycle st fs).2 := by
  induction fs generalizing st with
  | nil => simp [pollCycle]
  | cons f rest ih =>
      simp only [pollCycle, List.mem_append]
      intro hmem
      rcases hmem with hmem | hmem
      · exact pollFile_no_segment st f (h f (List.mem_cons_self f rest)) n sz hmem
      · exact ih (pollFile st f).1 (fun g hg => h g (List.mem_cons_of_mem f hg)) hmem

/-- C5 fails on the code: the poller handles the readdir listing in order
with no segments-before-manifest rule, so a listing that places stream.m3u8
before a fresh segment uploads the manifest first in that very cycle. -/
theorem poller_manifest_first_cex :
    (pollCycle pInit
        [{ name := "stream.m3u8", ageMs := 50, mtime := 10, size := 120 },
         { name := "segment_00000.ts", ageMs := 1000, mtime := 5, size := 40000 }]).2
      = [UpAct.manifest, UpAct.segment "segment_00000.ts" 40000] := by
  decide

/-- C5 (amended). Within a polling cycle uploads follow the directory
listing order: the cycle over a listing split as fs1 ++ fs2 performs the
fs1 uploads first, and when every stream.m3u8 entry lies in fs2 and every
.ts entry lies in fs1, all segment uploads of the cycle precede the
manifest upload; for other listing orders the manifest can be uploaded
before segments discovered in the same cycle. -/
theorem poller_listing_order (st : PollSt) (fs1 fs2 : List DirFile)
    (h1 : ∀ f ∈ fs1, f.name ≠ "stream.m3u8")
    (h2 : ∀ f ∈ fs2, strEndsWith f.name ".ts" = false) :
    (pollCycle st (fs1 ++ fs2)).2
      = (pollCycle st fs1).2 ++ (pollCycle (pollCycle st fs1).1 fs2).2
    ∧ UpAct.manifest ∉ (pollCycle st fs1).2
    ∧ (∀ (n : String) (sz : Nat),
        UpAct.segment n sz ∉ (pollCycle (pollCycle st fs1).1 fs2).2) := by
  refine ⟨?_, pollCycle_no_manifest fs1 st h1, ?_⟩
  · rw [pollCycle_append]
  · intro n sz
    exact pollCycle_no_segment fs2 (pollCycle st fs1).1 h2 n sz

/-- Concrete instance of C5 (amended): with the segment listed first, the
segment upload precedes the manifest upload. -/
theorem poller_listing_order_witness :
    (pollCycle pInit
        ([{ name := "segment_00000.ts", ageMs := 1000, mtime := 5, size := 40000 }]
          ++ [{ name := "stream.m3u8", ageMs := 50, mtime := 10, size := 120 }])).2
      = (pollCycle pInit
          [{ name := "segment_00000.ts", ageMs := 1000, mtime := 5, size := 40000 }]).2
        ++ (pollCycle
            (pollCycle pInit
              [{ name := "segment_00000.ts", ageMs := 1000, mtime := 5, size := 40000 }]).1
            [{ name := "stream.m3u8", ageMs := 50, mtime := 10, size := 120 }]).2 := by
  exact (poller_listing_order pInit
    [{ name := "segment_00000.ts", ageMs := 1000, mtime := 5, size := 40000 }]
    [{ name := "stream.m3u8", ageMs := 50, mtime := 10, size := 120 }]
    (by decide) (by decide)).1

theorem finalSweep_mem (uploaded : List String) (files : List FinFile)
    (f : FinFile) (hf : f ∈ files) (hts : strEndsWith f.name ".ts" = true)
    (hnu : f.name ∉ uploaded) :
    FinAct.uploadSegment f.name f.size ∈ (finalSweep uploaded files).1 := by
  induction files with
  | nil => cases hf
  | cons g rest ih =>
      rcases List.mem_cons.mp hf with heq | hmem
      · subst heq
        simp only [finalSweep, if_pos (And.intro hts hnu)]
        exact List.mem_cons_self _ _
      · by_cases hc : strEndsWith g.name ".ts" = true ∧ g.name ∉ uploaded
        · simp only [finalSweep, if_pos hc]
          exact List.mem_cons_of_mem _ (ih hmem)
        · simp only [finalSweep, if_neg hc]
          exact ih hmem

theorem finalSweep_no_error (uploaded : List String) (files : List FinFile) :
    ((finalSweep uploaded files).1).any isErrorFin = false := by
  induction files with
  | nil => rfl
  | cons g rest ih =>
      by_cases hc : strEndsWith g.name ".ts" = true ∧ g.name ∉ uploaded
      · simp [finalSweep, hc, isErrorFin, ih]
      · simp [finalSweep, hc, ih]

theorem finalize_suffix (uploaded : List String) (segCount totalBytes : Nat)
    (files : List FinFile) (mex : Bool) :
    ∃ pre, finalizeStream uploaded segCount totalBytes files mex
      = pre ++ [FinAct.publishStatus "ready",
                FinAct.publishComplete segCount (totalBytes + (finalSweep uploaded files).2),
                FinAct.setBrokerStatus "complete", FinAct.delOwner, FinAct.removeDir] := by
  refine ⟨FinAct.stopPoller :: ((finalSweep uploaded files).1
    ++ (if mex then [FinAct.uploadManifest] else [])), ?_⟩
  simp [finalizeStream, List.append_assoc]

/-- C6. When the muxer child exits the finalizer stops the poller, uploads
every remaining segment, uploads the final manifest when the file exists,
publishes StatusChange(Ready) followed by StreamComplete with the segment
count and accumulated bytes, sets the broker status to complete, deletes
the owner key and removes the temporary directory; for an empty stream it
publishes StreamComplete with segmentCount 0 and totalBytes 0. -/
theorem finalize_normal_actions (uploaded : List String) (segCount totalBytes : Nat)
    (files : List FinFile) (manifestExists : Bool) :
    (finalizeStream uploaded segCount totalBytes files manifestExists).head?
        = some FinAct.stopPoller
    ∧ (∀ f ∈ files, strEndsWith f.name ".ts" = true → f.name ∉ uploaded →
        FinAct.uploadSegment f.name f.size
          ∈ finalizeStream uploaded segCount totalBytes files manifestExists)
    ∧ (manifestExists = true →
        FinAct.uploadManifest
          ∈ finalizeStream uploaded segCount totalBytes files manifestExists)
    ∧ (∃ pre, finalizeStream uploaded segCount totalBytes files manifestExists
        = pre ++ [FinAct.publishStatus "ready",
                  FinAct.publishComplete segCount
                    (totalBytes + (finalSweep uploaded files).2),
                  FinAct.setBrokerStatus "complete", FinAct.delOwner, FinAct.removeDir])
    ∧ finalizeStream [] 0 0 [] true
        = [FinAct.stopPoller, FinAct.uploadManifest, FinAct.publishStatus "ready",
           FinAct.publishComplete 0 0, FinAct.setBrokerStatus "complete",
           FinAct.delOwner, FinAct.removeDir] := by
  refine ⟨rfl, ?_, ?_,
    finalize_suffix uploaded segCount totalBytes files manifestExists, by decide⟩
  · intro f hf hts hnu
    have hmem := finalSweep_mem uploaded files f hf hts hnu
    exact List.mem_cons_of_mem _ (List.mem_append_left _ hmem)
  · intro hmx
    subst hmx
    simp [finalizeStream]

/-- Concrete instance of C6: one leftover segment is swept and uploaded. -/
theorem finalize_normal_actions_witness :
    FinAct.uploadSegment "segment_00000.ts" 7
      ∈ finalizeStream [] 1 0 [{ name := "segment_00000.ts", size := 7 }] true := by
  exact (finalize_normal_actions [] 1 0 [{ name := "segment_00000.ts", size := 7 }] true).2.1
    { name := "segment_00000.ts", size := 7 } (by decide) (by decide) (by decide)

/-- C7 fails on the code: the close handler ignores the exit code and the
stream status, so a non-zero exit during Live still runs the normal-mode
finalizer — StatusChange(Ready) and StreamComplete are published and no
StatusChange(Error) or StreamError appears. -/
theorem muxer_error_exit_cex :
    onMuxerClose 1 "live" ["segment_00000.ts"] 5 100 [] true
      = [FinAct.stopPoller, FinAct.uploadManifest, FinAct.publishStatus "ready",
         FinAct.publishComplete 5 100, FinAct.setBrokerStatus "complete",
         FinAct.delOwner, FinAct.removeDir]
    ∧ (onMuxerClose 1 "live" ["segment_00000.ts"] 5 100 [] true).any isErrorFin
        = false := by
  refine ⟨by decide, by decide⟩

/-- C7 (amended). Whatever the muxer exit code and the stream status — in
particular a non-zero exit while Live — the finalizer runs in normal mode:
no error-mode publication ever occurs, the owner key is deleted, the
temporary directory is removed, and the action sequence ends with
StatusChange(Ready), StreamComplete, the broker status write, the owner
delete and the directory removal. -/
theorem muxer_close_always_normal (code : Int) (status : String)
    (uploaded : List String) (segCount totalBytes : Nat) (files : List FinFile)
    (manifestExists : Bool) :
    (onMuxerClose code status uploaded segCount totalBytes files manifestExists).any
        isErrorFin = false
    ∧ FinAct.delOwner
        ∈ onMuxerClose code status uploaded segCount totalBytes files manifestExists
    ∧ FinAct.removeDir
        ∈ onMuxerClose code status uploaded segCount totalBytes files manifestExists
    ∧ (∃ pre, onMuxerClose code status uploaded segCount totalBytes files manifestExists
        = pre ++ [FinAct.publishStatus "ready",
                  FinAct.publishComplete segCount
                    (totalBytes + (finalSweep uploaded files).2),
                  FinAct.setBrokerStatus "complete", FinAct.delOwner, FinAct.removeDir]) := by
  refine ⟨?_, ?_, ?_, finalize_suffix uploaded segCount totalBytes files manifestExists⟩
  · have hsweep := finalSweep_no_error uploaded files
    have hbe : (("ready" == "error") : Bool) = false := by decide
    unfold onMuxerClose finalizeStream
    cases manifestExists <;>
      simp [List.any_append, List.any_cons, hsweep, isErrorFin, hbe]
  · unfold onMuxerClose finalizeStream
    simp
  · unfold onMuxerClose finalizeStream
    simp

end Kubrick
